import Mathlib

/-!
Verification of the session turn-management core of the Clarity backend
(`backend/agents/templates.py`, `backend/services/autogen_service.py`,
`backend/services/conversation_service.py`, `backend/app.py`).

Shallow embedding conventions:
* The external LLM collaborator is an oracle: each `agent.run` call is one
  `ModelResult` (a text, an empty result, or a raised provider error), and a
  `group_chat.run_stream` iteration is a `List StreamItem`.
* Python strings are Lean `String`s.  `str.strip` / `str.lower` /
  slicing `[:n]` are modelled by `pyStrip` / `pyLower` / `pyTake`
  (ASCII case folding, the whitespace set of `Char.isWhitespace`).
* Wall-clock timestamps (`datetime.now().isoformat()`) and pacing delays
  (`asyncio.sleep`) carry no session state and are omitted from events and
  history entries.
* Python dicts that the code mutates are insertion-ordered association
  lists with last-write-wins assignment (`aset`) and front-to-back lookup
  (`alookup`).
* The big persona prompt texts are static configuration fed verbatim to the
  external model (out of scope per the spec); each is kept as a short string
  naming the source constant, since no behaviour reads its content.
-/

/-- ASCII lower-casing of one character, the fragment of Python `str.lower`
relevant to the embedded comparisons. -/
def pyLowerChar (c : Char) : Char :=
  if 65 ≤ c.toNat ∧ c.toNat ≤ 90 then Char.ofNat (c.toNat + 32) else c

/-- Python `s.lower()`. -/
def pyLower (s : String) : String :=
  ⟨s.data.map pyLowerChar⟩

/-- Drop whitespace from both ends of a character list (Python `str.strip`). -/
def stripList (l : List Char) : List Char :=
  ((l.dropWhile Char.isWhitespace).reverse.dropWhile Char.isWhitespace).reverse

/-- Python `s.strip()`. -/
def pyStrip (s : String) : String :=
  ⟨stripList s.data⟩

/-- Python `s[:n]`. -/
def pyTake (s : String) (n : Nat) : String :=
  ⟨s.data.take n⟩

/-- Whether `pat` is a prefix of `l` (character-wise). -/
def subAt : List Char → List Char → Bool
  | [], _ => true
  | _ :: _, [] => false
  | p :: ps, c :: cs => p = c && subAt ps cs

/-- Whether `pat` occurs somewhere inside `hay` (character-wise). -/
def hasSubList (pat : List Char) : List Char → Bool
  | [] => pat.isEmpty
  | c :: cs => subAt pat (c :: cs) || hasSubList pat cs

/-- Python `pat in hay` for strings. -/
def pyContains (hay pat : String) : Bool :=
  hasSubList pat.data hay.data

/-- Association-list lookup, Python `d.get(k)` / `k in d`. -/
def alookup {α : Type} : List (String × α) → String → Option α
  | [], _ => none
  | (k, v) :: rest, key => if key = k then some v else alookup rest key

/-- Association-list assignment, Python `d[k] = v` (overwrite or append). -/
def aset {α : Type} : List (String × α) → String → α → List (String × α)
  | [], k, v => [(k, v)]
  | (k', v') :: rest, k, v =>
    if k = k' then (k, v) :: rest else (k', v') :: aset rest k v

/-- Kind tag of a history entry (`"type": "user"` / `"type": "agent"`). -/
inductive MsgType
  | user
  | agent
deriving DecidableEq, Repr

/-- One entry of `conversation_history` (timestamp omitted, see header). -/
structure HistoryEntry where
  speaker : String
  message : String
  htype : MsgType
deriving DecidableEq, Repr

/-- An outbound event yielded by a turn: an `agent_message` or an `error`
payload (timestamp omitted). -/
inductive Event
  | agentMessage (agent_name message agent_gender voice_id : String)
  | errorEvent (message : String)
deriving DecidableEq, Repr

/-- The failure kinds the services catch from the model provider:
`openai.RateLimitError`, `openai.AuthenticationError`, and any other
exception; each carries its `str(e)` text. -/
inductive ApiError
  | rateLimit (msg : String)
  | authFailed (msg : String)
  | generic (msg : String)
deriving DecidableEq, Repr

/-- Outcome of one `agent.run(task=...)` call: a final message text, a
falsy/empty result, or a raised provider error. -/
inductive ModelResult
  | success (text : String)
  | empty
  | raised (e : ApiError)
deriving DecidableEq, Repr

/-- Whether a model call raised. -/
def ModelResult.isRaised : ModelResult → Bool
  | .raised _ => true
  | _ => false

/-- One item obtained from iterating `group_chat.run_stream(task)`: a reply
with a declared source and text, an item with no usable `content` attribute,
or the iteration raising a provider error. -/
inductive StreamItem
  | reply (source content : String)
  | noText
  | raised (e : ApiError)
deriving DecidableEq, Repr

/-- Whether polling this stream item raises. -/
def StreamItem.isRaised : StreamItem → Bool
  | .raised _ => true
  | _ => false

/-- The model-call oracle for one jury-mode turn: the closing call
(when the evaluation is complete), the thank-you call and the question
call (otherwise). -/
structure JuryOracle where
  closingResult : ModelResult
  thankYouResult : ModelResult
  questionResult : ModelResult
deriving Repr

/-- The external collaborator's behaviour for one turn, whichever mode
consumes it. -/
structure TurnOracle where
  jury : JuryOracle
  env : List StreamItem
deriving Repr

/-- `agents/templates.py` `AgentTemplate`: a persona's name, system prompt,
persona tag, gender and voice id. -/
structure AgentTemplate where
  name : String
  system_prompt : String
  persona : String
  gender : String
  voice_id : String
deriving DecidableEq, Repr

instance : Inhabited AgentTemplate :=
  ⟨⟨"", "", "", "", ""⟩⟩

/-- Stand-in for the jury UX persona prompt text (static configuration). -/
def sarah_system_prompt : String :=
  "sarah_system_prompt: You are Sarah Chen, a friendly UX designer ..."

/-- Stand-in for the jury technical persona prompt text. -/
def alex_system_prompt : String :=
  "alex_system_prompt: You are Alex Thompson, a practical software developer ..."

/-- Stand-in for the jury business persona prompt text. -/
def marcus_system_prompt : String :=
  "marcus_system_prompt: You are Marcus Rodriguez, a friendly business-minded person ..."

/-- `ConversationTemplates.get_presentation_jury_mode`: the three jury
personas, in registration order. -/
def get_presentation_jury_mode : List AgentTemplate :=
  [⟨"Sarah Chen", sarah_system_prompt, "ux_specialist", "female",
      "v3V1d2rk6528UrLKRuy8"⟩,
   ⟨"Alex Thompson", alex_system_prompt, "technical_expert", "male",
      "5Q0t7uMcjvnagumLfvZi"⟩,
   ⟨"Marcus Rodriguez", marcus_system_prompt, "business_analyst", "male",
      "D38z5RcWu1voky8WS1ja"⟩]

/-- The `environment_type == "school"` persona list. -/
def schoolTemplates : List AgentTemplate :=
  [⟨"Max", "max prompt: You are Max, a friendly high school student ...",
      "student_tech", "male", "TxGEqnHWrfWFTfGW9XjX"⟩,
   ⟨"Luna", "luna prompt: You are Luna, an enthusiastic high school student ...",
      "student_social", "female", "EXAVITQu4vr4xnSDxMaL"⟩,
   ⟨"Jordan", "jordan prompt: You are Jordan, a creative high school student ...",
      "student_creative", "neutral", "MF3mGyEYCl7XYWbV9V6O"⟩]

/-- The `environment_type == "office"` persona list. -/
def officeTemplates : List AgentTemplate :=
  [⟨"David Kim", "david prompt: You are David Kim, a professional project manager ...",
      "professional_mentor", "male", "pNInz6obpgDQGcFmaJgB"⟩,
   ⟨"Maria Garcia", "maria prompt: You are Maria Garcia, a marketing professional ...",
      "marketing_creative", "female", "MF3mGyEYCl7XYWbV9V6O"⟩]

/-- `ConversationTemplates.get_environment_mode`: environment persona list
with fallback.  The source's default branch is the tail call
`get_environment_mode("school")`, which returns the school list. -/
def get_environment_mode (environment_type : String) : List AgentTemplate :=
  if environment_type = "school" then schoolTemplates
  else if environment_type = "office" then officeTemplates
  else schoolTemplates

/-- `ConversationTemplates.get_background_audio_enabled`. -/
def get_background_audio_enabled (mode : String) : Bool :=
  mode = "environment"

/-- The `valid_name` conversion applied to template names:
`name.replace(" ", "_").replace("-", "_").lower()` (both replaced patterns
are single characters, so the replace is a character map). -/
def validName (s : String) : String :=
  pyLower ⟨s.data.map (fun c => if c = ' ' then '_' else if c = '-' then '_' else c)⟩

/-- `services/autogen_service.py` `ConversationSession` state.  The
`agents` list of framework objects corresponds one-to-one with
`agent_templates` (both are appended in the same `setup_agents` loop), so a
single template list stands for both; `group_chat` is external and only its
presence (`has_group_chat`) matters. -/
structure AutogenSession where
  session_id : String
  mode : String
  environment_type : String
  agent_templates : List AgentTemplate
  agent_name_mapping : List (String × String)
  has_group_chat : Bool
  conversation_history : List HistoryEntry
  current_speaker_index : Nat
  current_jury_index : Nat
  jury_has_spoken : List (String × Bool)
  questions_asked : Nat
  max_questions : Nat
  last_agent_who_asked : Option String
  conversation_turns : Nat
  max_conversation_turns : Nat
deriving DecidableEq, Repr

/-- `AutogenSession.__init__` plus `setup_agents`. -/
def mkAutogenSession (session_id mode environment_type : String) : AutogenSession :=
  let templates :=
    if mode = "presentation-jury-mode" then get_presentation_jury_mode
    else get_environment_mode environment_type
  { session_id := session_id
    mode := mode
    environment_type := environment_type
    agent_templates := templates
    agent_name_mapping :=
      templates.foldl (fun m t => aset m (validName t.name) t.name) []
    has_group_chat := mode ≠ "presentation-jury-mode"
    conversation_history := []
    current_speaker_index := 0
    current_jury_index := 0
    jury_has_spoken :=
      if mode = "presentation-jury-mode" then
        templates.foldl (fun m t => aset m t.name false) []
      else []
    questions_asked := 0
    max_questions := 4
    last_agent_who_asked := none
    conversation_turns := 0
    max_conversation_turns := 20 }

/-- `services/conversation_service.py` `ConversationSession` state. -/
structure ConvSession where
  session_id : String
  environment_type : String
  agent_templates : List AgentTemplate
  agent_name_mapping : List (String × String)
  conversation_history : List HistoryEntry
  conversation_turns : Nat
  max_conversation_turns : Nat
deriving DecidableEq, Repr

/-- `ConvSession.__init__` plus `setup_agents`. -/
def mkConvSession (session_id environment_type : String) : ConvSession :=
  let templates := get_environment_mode environment_type
  { session_id := session_id
    environment_type := environment_type
    agent_templates := templates
    agent_name_mapping :=
      templates.foldl (fun m t => aset m (validName t.name) t.name) []
    conversation_history := []
    conversation_turns := 0
    max_conversation_turns := 20 }

/-- The history entry recording an incoming user utterance. -/
def userEntry (user_name user_message : String) : HistoryEntry :=
  ⟨user_name, user_message, .user⟩

/-- Build the `agent_message` payload for a template and a text. -/
def mkAgentEvent (t : AgentTemplate) (text : String) : Event :=
  .agentMessage t.name text t.gender t.voice_id

/-- The fixed quota-exceeded error text (identical in both services). -/
def quotaMessage : String :=
  "Sorry, we've reached our daily AI conversation limit. Please try again later or contact support to increase the quota."

/-- The fixed authentication error text (identical in both services). -/
def authMessage : String :=
  "Authentication issue with AI service. Please contact support."

/-- `str(e)` of a caught provider error. -/
def errStr : ApiError → String
  | .rateLimit m => m
  | .authFailed m => m
  | .generic m => m

/-- The error text produced by the `except` clauses of
`_get_jury_response` and of autogen `_get_environment_response`. -/
def autogenErrorText : ApiError → String
  | .rateLimit _ => quotaMessage
  | .authFailed _ => authMessage
  | .generic m => "Sorry, there was an unexpected error: " ++ pyTake m 100 ++ "..."

/-- The error text produced by the `except` clauses of the conversation
service's `get_agent_responses`. -/
def convErrorText : ApiError → String
  | .rateLimit _ => quotaMessage
  | .authFailed _ => authMessage
  | .generic m => "Sorry, there was an error: " ++ pyTake m 100 ++ "..."

/-- The error text of the catch-all in autogen `get_agent_response`, the
only handler around the closing (evaluation-complete) model call. -/
def outerErrorText (e : ApiError) : String :=
  "Sorry, there was an error processing your message: " ++ errStr e

/-- The hardcoded fallback conclusion text of `_get_jury_response`. -/
def fallbackClosingText (user_name : String) : String :=
  "[thoughtful] Thank you " ++ user_name ++
    "! [pause] I think we are done with the questions. [confident] You've shared some really valuable insights. [happy] We appreciate your time!"

/-- The fallback final message block of `_get_jury_response`: a fixed
conclusion from `agent_templates[0]`.  On an empty template list the
source would raise `IndexError`, caught by `get_agent_response`'s
catch-all. -/
def juryFallbackClosing (s : AutogenSession) (user_name : String) :
    AutogenSession × List Event :=
  match s.agent_templates with
  | [] => (s, [Event.errorEvent (outerErrorText (.generic "list index out of range"))])
  | t :: _ => (s, [Event.agentMessage t.name (fallbackClosingText user_name) t.gender t.voice_id])

/-- The evaluation-complete branch of `_get_jury_response`
(`questions_asked >= max_questions`): the last asker produces a closing
message; a falsy result or a missing last asker falls through to the
fallback.  This branch lies outside the local `try`, so a raised provider
error propagates to `get_agent_response`'s catch-all. -/
def juryClosing (s : AutogenSession) (user_name : String) (o : JuryOracle) :
    AutogenSession × List Event :=
  match s.last_agent_who_asked with
  | some nm =>
    match s.agent_templates.find? (fun t => decide (t.name = nm)) with
    | some t =>
      match o.closingResult with
      | .success txt => (s, [mkAgentEvent t txt])
      | .empty => juryFallbackClosing s user_name
      | .raised e => (s, [Event.errorEvent (outerErrorText e)])
    | none => juryFallbackClosing s user_name
  | none => juryFallbackClosing s user_name

/-- The thank-you sender of a jury question turn: the agent who asked the
last question, when one is recorded, the utterance is non-blank, and the
recorded name matches a template. -/
def thankTemplate (s : AutogenSession) (user_message : String) : Option AgentTemplate :=
  match s.last_agent_who_asked with
  | some nm =>
    if pyStrip user_message ≠ "" then
      s.agent_templates.find? (fun t => decide (t.name = nm))
    else none
  | none => none

/-- Step 2 and 3 of a jury question turn: advance
`current_jury_index = (current_jury_index + 1) % len(agents)` (before the
model call), then ask the question; on success append it to history, mark
the asker, increment `questions_asked` and record `last_agent_who_asked`.
`acc` holds the already-yielded thank-you event.  An empty template list
makes the source raise `ZeroDivisionError`, caught by the local generic
`except`. -/
def juryAskQuestion (s : AutogenSession) (o : JuryOracle) (acc : List Event) :
    AutogenSession × List Event :=
  match s.agent_templates with
  | [] =>
    (s, acc ++ [Event.errorEvent (autogenErrorText (.generic "integer division or modulo by zero"))])
  | _ :: _ =>
    let idx := (s.current_jury_index + 1) % s.agent_templates.length
    let nt := s.agent_templates.getD idx default
    let s₁ := { s with current_jury_index := idx }
    match o.questionResult with
    | .raised e => (s₁, acc ++ [Event.errorEvent (autogenErrorText e)])
    | .empty => (s₁, acc)
    | .success txt =>
      ({ s₁ with
          conversation_history := s₁.conversation_history ++ [⟨nt.name, txt, .agent⟩]
          jury_has_spoken := aset s₁.jury_has_spoken nt.name true
          questions_asked := s₁.questions_asked + 1
          last_agent_who_asked := some nt.name },
        acc ++ [mkAgentEvent nt txt])

/-- A jury question turn (the `try` block of `_get_jury_response`): the
previous asker thanks the user first (the thank-you is yielded but not
appended to history), then the next jury member asks.  A provider error is
caught by the local `except` clauses and yielded as one error event after
whatever was already yielded. -/
def juryQuestionTurn (s : AutogenSession) (user_message : String) (o : JuryOracle) :
    AutogenSession × List Event :=
  match thankTemplate s user_message with
  | some t =>
    match o.thankYouResult with
    | .raised e => (s, [Event.errorEvent (autogenErrorText e)])
    | .success txt => juryAskQuestion s o [mkAgentEvent t txt]
    | .empty => juryAskQuestion s o []
  | none => juryAskQuestion s o []

/-- `_get_jury_response`. -/
def juryCore (s : AutogenSession) (user_message user_name : String) (o : JuryOracle) :
    AutogenSession × List Event :=
  if s.questions_asked ≥ s.max_questions then juryClosing s user_name o
  else juryQuestionTurn s user_message o

/-- The response-filtering loop shared verbatim by
`conversation_service.get_agent_responses` and autogen
`_get_environment_response`: iterate the stream; on each polled item first
break if the cap is reached, then apply the filters in source order (echo
of the user's input, user-sourced, unknown source, duplicate persona this
turn, leaked template markers); an accepted reply is appended to history
and yielded.  Returns the appended history entries, the yielded events,
and the provider error the iteration raised, if any (to be converted by
the caller's `except` clauses). -/
def envLoop (templates : List AgentTemplate) (mapping : List (String × String))
    (user_message user_name : String) (maxResponses : Nat) :
    List StreamItem → Nat → List String →
      List HistoryEntry × List Event × Option ApiError
  | [], _, _ => ([], [], none)
  | item :: rest, count, responded =>
    match item with
    | .raised e => ([], [], some e)
    | .noText =>
      if count ≥ maxResponses then ([], [], none)
      else envLoop templates mapping user_message user_name maxResponses rest count responded
    | .reply src c =>
      if count ≥ maxResponses then ([], [], none)
      else if pyStrip c = "" then
        envLoop templates mapping user_message user_name maxResponses rest count responded
      else if pyLower (pyStrip c) = pyLower (pyStrip user_message) ∨
          pyStrip c = pyStrip user_message then
        envLoop templates mapping user_message user_name maxResponses rest count responded
      else if src = user_name ∨ src = "User" then
        envLoop templates mapping user_message user_name maxResponses rest count responded
      else if (alookup mapping src).isNone then
        envLoop templates mapping user_message user_name maxResponses rest count responded
      else if src ∈ responded then
        envLoop templates mapping user_message user_name maxResponses rest count responded
      else if pyContains c "Previous conversation context:" = true ∨
          pyContains c "User just said:" = true then
        envLoop templates mapping user_message user_name maxResponses rest count responded
      else
        let display := (alookup mapping src).getD src
        let tpl := templates.find? (fun t => decide (t.name = display))
        let ev : Event := .agentMessage display c
          (match tpl with | some t => t.gender | none => "female")
          (match tpl with | some t => t.voice_id | none => "EXAVITQu4vr4xnSDxMaL")
        let r := envLoop templates mapping user_message user_name maxResponses rest
          (count + 1) (responded ++ [src])
        (⟨src, c, .agent⟩ :: r.1, ev :: r.2.1, r.2.2)

/-- Autogen `_get_environment_response` (the session already holds the
appended user entry): reject silently past the turn cap or without a group
chat, else increment `conversation_turns`, compute the response cap from
the current history length, and run the filtering loop. -/
def autogenEnvCore (s : AutogenSession) (user_message user_name : String)
    (stream : List StreamItem) : AutogenSession × List Event :=
  if s.conversation_turns ≥ s.max_conversation_turns then (s, [])
  else if !s.has_group_chat then (s, [])
  else
    let s₁ := { s with conversation_turns := s.conversation_turns + 1 }
    let maxResponses := if s₁.conversation_history.length > 5 then 3 else 2
    let r := envLoop s₁.agent_templates s₁.agent_name_mapping user_message user_name
      maxResponses stream 0 []
    let s₂ := { s₁ with conversation_history := s₁.conversation_history ++ r.1 }
    match r.2.2 with
    | some e => (s₂, r.2.1 ++ [Event.errorEvent (autogenErrorText e)])
    | none => (s₂, r.2.1)

/-- Autogen `get_agent_response`: append the user utterance to history,
then dispatch on the session's mode. -/
def autogenGetAgentResponse (s : AutogenSession) (user_message user_name : String)
    (o : TurnOracle) : AutogenSession × List Event :=
  let s₀ := { s with
    conversation_history := s.conversation_history ++ [userEntry user_name user_message] }
  if s.mode = "presentation-jury-mode" then juryCore s₀ user_message user_name o.jury
  else autogenEnvCore s₀ user_message user_name o.env

/-- `conversation_service.ConversationSession.get_agent_responses`: append
the user utterance to history, reject silently past the turn cap, else
increment `conversation_turns`, compute the response cap from the current
history length (which already includes the new user entry) and run the
filtering loop; a provider error raised by the stream is converted to one
error event after the replies already yielded. -/
def convTurn (s : ConvSession) (user_message user_name : String)
    (stream : List StreamItem) : ConvSession × List Event :=
  let s₀ := { s with
    conversation_history := s.conversation_history ++ [userEntry user_name user_message] }
  if s₀.conversation_turns ≥ s₀.max_conversation_turns then (s₀, [])
  else
    let s₁ := { s₀ with conversation_turns := s₀.conversation_turns + 1 }
    let maxResponses := if s₁.conversation_history.length > 5 then 3 else 2
    let r := envLoop s₁.agent_templates s₁.agent_name_mapping user_message user_name
      maxResponses stream 0 []
    let s₂ := { s₁ with conversation_history := s₁.conversation_history ++ r.1 }
    match r.2.2 with
    | some e => (s₂, r.2.1 ++ [Event.errorEvent (convErrorText e)])
    | none => (s₂, r.2.1)

/-- An outbound WebSocket frame of `app.websocket_endpoint`
(timestamps omitted). -/
inductive WsOut
  | messageReceived (content : String)
  | ev (e : Event)
  | pong
deriving DecidableEq, Repr

/-- The fixed acknowledgment text sent for every `user_message`. -/
def ackText : String :=
  "Processing your message..."

/-- The two process-wide session stores (`autogen_service.sessions` for
jury mode, `conversation_service.sessions` for environment mode). -/
structure AppState where
  jurySessions : List (String × AutogenSession)
  convSessions : List (String × ConvSession)
deriving DecidableEq, Repr

/-- `websocket_endpoint` handling of one inbound `user_message`: send the
acknowledgment, then look the session id up in the jury store, then in the
conversation store, and stream that orchestrator's responses; an id absent
from both stores is only logged. -/
def handleUserMessage (st : AppState) (session_id content user_name : String)
    (o : TurnOracle) : AppState × List WsOut :=
  match alookup st.jurySessions session_id with
  | some s =>
    let r := autogenGetAgentResponse s content user_name o
    ({ st with jurySessions := aset st.jurySessions session_id r.1 },
      WsOut.messageReceived ackText :: r.2.map WsOut.ev)
  | none =>
    match alookup st.convSessions session_id with
    | some s =>
      let r := convTurn s content user_name o.env
      ({ st with convSessions := aset st.convSessions session_id r.1 },
        WsOut.messageReceived ackText :: r.2.map WsOut.ev)
    | none => (st, [WsOut.messageReceived ackText])

/-- `Char.ofNat` evaluates to its argument on valid code points. -/
theorem toNat_ofNat_valid (m : Nat) (h : m.isValidChar) : (Char.ofNat m).toNat = m := by
  simp only [Char.ofNat, dif_pos h, Char.ofNatAux, Char.toNat, UInt32.toNat]
  rfl

/-- Character equality is code-point equality. -/
theorem char_eq_iff_toNat (a b : Char) : a = b ↔ a.toNat = b.toNat := by
  constructor
  · intro h
    rw [h]
  · intro h
    exact Char.ext (UInt32.ext h)

/-- The whitespace predicate in terms of code points. -/
theorem isWhitespace_iff (c : Char) :
    c.isWhitespace = true ↔
      (c.toNat = 32 ∨ c.toNat = 9 ∨ c.toNat = 13 ∨ c.toNat = 10) := by
  simp [Char.isWhitespace, char_eq_iff_toNat]
  omega

/-- ASCII lower-casing preserves whether a character is whitespace. -/
theorem pyLowerChar_whitespace (c : Char) :
    (pyLowerChar c).isWhitespace = c.isWhitespace := by
  unfold pyLowerChar
  split
  · next h =>
    have hv : (c.toNat + 32).isValidChar := by
      unfold Nat.isValidChar
      left
      omega
    have h1 : (Char.ofNat (c.toNat + 32)).toNat = c.toNat + 32 := toNat_ofNat_valid _ hv
    have h2 : (Char.ofNat (c.toNat + 32)).isWhitespace = false := by
      rw [Bool.eq_false_iff]
      intro hw
      rw [isWhitespace_iff] at hw
      omega
    have h3 : c.isWhitespace = false := by
      rw [Bool.eq_false_iff]
      intro hw
      rw [isWhitespace_iff] at hw
      omega
    rw [h2, h3]
  · rfl

/-- Stripping commutes with character-wise lower-casing. -/
theorem stripList_map_lower (l : List Char) :
    stripList (l.map pyLowerChar) = (stripList l).map pyLowerChar := by
  have hpred : (Char.isWhitespace ∘ pyLowerChar) = Char.isWhitespace :=
    funext fun c => pyLowerChar_whitespace c
  unfold stripList
  rw [List.dropWhile_map, hpred, ← List.map_reverse, List.dropWhile_map, hpred,
    ← List.map_reverse]

/-- `s.lower().strip() = s.strip().lower()`. -/
theorem pyStrip_pyLower (s : String) : pyStrip (pyLower s) = pyLower (pyStrip s) := by
  unfold pyStrip pyLower
  exact congrArg String.mk (stripList_map_lower s.data)

/-- Case-insensitively equal strings are case-insensitively equal after
stripping. -/
theorem pyLower_strip_congr {c u : String} (h : pyLower c = pyLower u) :
    pyLower (pyStrip c) = pyLower (pyStrip u) := by
  rw [← pyStrip_pyLower, ← pyStrip_pyLower, h]

/-- C9: the persona catalog lookup is a pure function (determinism and
freedom from side effects are structural in this embedding); looking up the
"school" environment yields exactly the three school personas with these
names, genders and voice ids, in this order, and any unrecognized
environment type falls back to exactly the "school" list, never failing. -/
theorem C9_persona_catalog :
    ((get_environment_mode "school").map (fun t => (t.name, t.gender, t.voice_id)) =
      [("Max", "male", "TxGEqnHWrfWFTfGW9XjX"),
       ("Luna", "female", "EXAVITQu4vr4xnSDxMaL"),
       ("Jordan", "neutral", "MF3mGyEYCl7XYWbV9V6O")]) ∧
    (∀ t : String, t ≠ "school" → t ≠ "office" →
      get_environment_mode t = get_environment_mode "school") := by
  constructor
  · decide
  · intro t h1 h2
    unfold get_environment_mode
    rw [if_neg h1, if_neg h2, if_pos rfl]

/-- C9 witness: the fallback branch at the concrete unrecognized type
"beach". -/
theorem C9_persona_catalog_witness :
    get_environment_mode "beach" = get_environment_mode "school" :=
  C9_persona_catalog.2 "beach" (by decide) (by decide)

/-- The capped-turn equation of `get_agent_responses`: past the cap only
the user entry is recorded. -/
theorem convTurn_capped (s : ConvSession) (m n : String) (stream : List StreamItem)
    (h : s.conversation_turns ≥ s.max_conversation_turns) :
    convTurn s m n stream =
      ({ s with conversation_history := s.conversation_history ++ [userEntry n m] }, []) := by
  unfold convTurn
  simp [h]

/-- C3 (amended): a user utterance arriving at an ENVIRONMENT session whose
`conversation_turns` has reached `max_conversation_turns` produces no
outbound event and changes no session state other than
`conversation_history`, which still receives the user utterance (appended
before the limit check). -/
theorem C3_env_cap_reject (s : ConvSession) (m n : String) (stream : List StreamItem)
    (h : s.conversation_turns ≥ s.max_conversation_turns) :
    convTurn s m n stream =
      ({ s with conversation_history := s.conversation_history ++ [userEntry n m] }, []) :=
  convTurn_capped s m n stream h

/-- An ENVIRONMENT session sitting at the 20-turn cap. -/
def envSessionAtCap : ConvSession :=
  { mkConvSession "sid" "school" with conversation_turns := 20 }

/-- C3 counterexample: at the turn cap the turn is not a complete no-op —
no event is emitted, but the session state does change: the user utterance
is appended to `conversation_history`. -/
theorem C3_counterexample :
    (convTurn envSessionAtCap "Hello" "User" []).2 = [] ∧
      (convTurn envSessionAtCap "Hello" "User" []).1 ≠ envSessionAtCap := by
  constructor
  · rfl
  · decide

/-- C3 witness: the amended statement at the concrete capped session. -/
theorem C3_env_cap_reject_witness :
    convTurn envSessionAtCap "Hello" "User" [] =
      ({ envSessionAtCap with
          conversation_history :=
            envSessionAtCap.conversation_history ++ [userEntry "User" "Hello"] }, []) :=
  C3_env_cap_reject envSessionAtCap "Hello" "User" [] (by decide)

/-- C8 (amended): a `user_message` on a channel whose session id is absent
from both stores produces no outbound message beyond the unconditional
`message_received` acknowledgment (which is sent before the session lookup),
in particular no `agent_message` and no `error` event, and leaves both
session stores unchanged. -/
theorem C8_session_not_found (st : AppState) (sid c n : String) (o : TurnOracle)
    (h1 : alookup st.jurySessions sid = none) (h2 : alookup st.convSessions sid = none) :
    handleUserMessage st sid c n o = (st, [WsOut.messageReceived ackText]) := by
  unfold handleUserMessage
  rw [h1, h2]

/-- The empty session stores. -/
def emptyAppState : AppState :=
  ⟨[], []⟩

/-- A turn oracle whose calls all return empty results. -/
def trivialOracle : TurnOracle :=
  ⟨⟨.empty, .empty, .empty⟩, []⟩

/-- C8 counterexample: with the session id absent from both stores, an
outbound message is still produced for the utterance — the
`message_received` acknowledgment is sent before the lookup — so "no
outbound message is produced" fails as stated. -/
theorem C8_counterexample :
    (handleUserMessage emptyAppState "missing" "hello" "User" trivialOracle).2 ≠ [] := by
  decide

/-- C8 witness: the amended statement at the empty stores. -/
theorem C8_session_not_found_witness :
    handleUserMessage emptyAppState "missing" "hello" "User" trivialOracle =
      (emptyAppState, [WsOut.messageReceived ackText]) :=
  C8_session_not_found emptyAppState "missing" "hello" "User" trivialOracle rfl rfl

/-- The fallback closing leaves the session untouched. -/
theorem juryFallbackClosing_fst (s : AutogenSession) (un : String) :
    (juryFallbackClosing s un).1 = s := by
  unfold juryFallbackClosing
  rcases h : s.agent_templates with _ | ⟨t, ts⟩ <;> simp

/-- The evaluation-complete branch leaves the session untouched. -/
theorem juryClosing_fst (s : AutogenSession) (un : String) (o : JuryOracle) :
    (juryClosing s un o).1 = s := by
  unfold juryClosing
  split
  · split
    · split <;> first
        | rfl
        | exact juryFallbackClosing_fst _ _
    · exact juryFallbackClosing_fst _ _
  · exact juryFallbackClosing_fst _ _

/-- Field bookkeeping of the advance-and-ask step: mode, caps and template
list are untouched and `questions_asked` grows by at most one (and only in
the success case). -/
theorem juryAskQuestion_fields (s : AutogenSession) (o : JuryOracle) (acc : List Event) :
    (juryAskQuestion s o acc).1.mode = s.mode ∧
    (juryAskQuestion s o acc).1.max_questions = s.max_questions ∧
    (juryAskQuestion s o acc).1.conversation_turns = s.conversation_turns ∧
    (juryAskQuestion s o acc).1.agent_templates = s.agent_templates ∧
    ((juryAskQuestion s o acc).1.questions_asked = s.questions_asked ∨
      (juryAskQuestion s o acc).1.questions_asked = s.questions_asked + 1) := by
  unfold juryAskQuestion
  rcases hT : s.agent_templates with _ | ⟨t, ts⟩
  · simp [hT]
  · rcases hQ : o.questionResult <;> simp [hT, hQ]

/-- Field bookkeeping of a whole question turn. -/
theorem juryQuestionTurn_fields (s : AutogenSession) (m : String) (o : JuryOracle) :
    (juryQuestionTurn s m o).1.mode = s.mode ∧
    (juryQuestionTurn s m o).1.max_questions = s.max_questions ∧
    (juryQuestionTurn s m o).1.conversation_turns = s.conversation_turns ∧
    (juryQuestionTurn s m o).1.agent_templates = s.agent_templates ∧
    ((juryQuestionTurn s m o).1.questions_asked = s.questions_asked ∨
      (juryQuestionTurn s m o).1.questions_asked = s.questions_asked + 1) := by
  unfold juryQuestionTurn
  rcases hTT : thankTemplate s m with _ | t
  · exact juryAskQuestion_fields s o []
  · rcases hTY : o.thankYouResult with txt | _ | e <;> simp only
    · exact juryAskQuestion_fields s o _
    · exact juryAskQuestion_fields s o []
    · simp

/-- Field bookkeeping of `_get_jury_response`. -/
theorem juryCore_fields (s : AutogenSession) (m n : String) (o : JuryOracle) :
    (juryCore s m n o).1.mode = s.mode ∧
    (juryCore s m n o).1.max_questions = s.max_questions ∧
    (juryCore s m n o).1.conversation_turns = s.conversation_turns ∧
    (juryCore s m n o).1.agent_templates = s.agent_templates ∧
    ((juryCore s m n o).1.questions_asked = s.questions_asked ∨
      ((juryCore s m n o).1.questions_asked = s.questions_asked + 1 ∧
        s.questions_asked < s.max_questions)) := by
  unfold juryCore
  split
  · rw [juryClosing_fst]
    simp
  · next h =>
    have hlt : s.questions_asked < s.max_questions := Nat.lt_of_not_le h
    obtain ⟨h1, h2, h3, h4, h5⟩ := juryQuestionTurn_fields s m o
    exact ⟨h1, h2, h3, h4, h5.imp id (fun hq => ⟨hq, hlt⟩)⟩

/-- Field bookkeeping of the autogen environment branch: the jury counters
are untouched. -/
theorem autogenEnvCore_fields (s : AutogenSession) (m n : String) (stream : List StreamItem) :
    (autogenEnvCore s m n stream).1.mode = s.mode ∧
    (autogenEnvCore s m n stream).1.max_questions = s.max_questions ∧
    (autogenEnvCore s m n stream).1.agent_templates = s.agent_templates ∧
    (autogenEnvCore s m n stream).1.questions_asked = s.questions_asked ∧
    (autogenEnvCore s m n stream).1.current_jury_index = s.current_jury_index ∧
    (autogenEnvCore s m n stream).1.last_agent_who_asked = s.last_agent_who_asked := by
  unfold autogenEnvCore
  repeat' split <;> try simp

/-- Field bookkeeping of one whole `get_agent_response` turn. -/
theorem autogenTurn_fields (s : AutogenSession) (m n : String) (o : TurnOracle) :
    (autogenGetAgentResponse s m n o).1.mode = s.mode ∧
    (autogenGetAgentResponse s m n o).1.max_questions = s.max_questions ∧
    (autogenGetAgentResponse s m n o).1.agent_templates = s.agent_templates ∧
    ((autogenGetAgentResponse s m n o).1.questions_asked = s.questions_asked ∨
      ((autogenGetAgentResponse s m n o).1.questions_asked = s.questions_asked + 1 ∧
        s.questions_asked < s.max_questions)) := by
  unfold autogenGetAgentResponse
  split
  · obtain ⟨h1, h2, h3, h4, h5⟩ := juryCore_fields
      { s with conversation_history := s.conversation_history ++ [userEntry n m] } m n o.jury
    exact ⟨h1, h2, h4, h5⟩
  · obtain ⟨h1, h2, h3, h4, h5, h6⟩ := autogenEnvCore_fields
      { s with conversation_history := s.conversation_history ++ [userEntry n m] } m n o.env
    exact ⟨h1, h2, h3, Or.inl h4⟩

/-- Fold a sequence of incoming user messages through `get_agent_response`;
each input is (user_message, user_name, oracle). -/
def juryRun (s : AutogenSession) (inputs : List (String × String × TurnOracle)) :
    AutogenSession :=
  inputs.foldl (fun s i => (autogenGetAgentResponse s i.1 i.2.1 i.2.2).1) s

/-- Across any sequence of turns, `questions_asked` stays below the
(preserved) `max_questions` bound. -/
theorem juryRun_bound (inputs : List (String × String × TurnOracle)) :
    ∀ s : AutogenSession, s.questions_asked ≤ s.max_questions →
      (juryRun s inputs).questions_asked ≤ s.max_questions ∧
        (juryRun s inputs).max_questions = s.max_questions := by
  induction inputs with
  | nil => exact fun s h => ⟨h, rfl⟩
  | cons i rest ih =>
    intro s h
    obtain ⟨h1, h2, h3, h4⟩ := autogenTurn_fields s i.1 i.2.1 i.2.2
    have hle : (autogenGetAgentResponse s i.1 i.2.1 i.2.2).1.questions_asked ≤
        (autogenGetAgentResponse s i.1 i.2.1 i.2.2).1.max_questions := by
      rw [h2]
      rcases h4 with hq | ⟨hq, hlt⟩
      · rw [hq]
        exact h
      · rw [hq]
        exact hlt
    have hrest := ih (autogenGetAgentResponse s i.1 i.2.1 i.2.2).1 hle
    exact ⟨le_trans hrest.1 (le_of_eq h2), hrest.2.trans h2⟩

/-- With a nonempty template list, the fallback closing is one
`agent_message`. -/
theorem juryFallbackClosing_events (s : AutogenSession) (un : String)
    (htpl : s.agent_templates ≠ []) :
    ∃ nm txt g v, (juryFallbackClosing s un).2 = [Event.agentMessage nm txt g v] := by
  unfold juryFallbackClosing
  rcases hT : s.agent_templates with _ | ⟨t, ts⟩
  · exact absurd hT htpl
  · exact ⟨t.name, fallbackClosingText un, t.gender, t.voice_id, rfl⟩

/-- When the closing model call does not raise, the evaluation-complete
branch yields exactly one `agent_message`. -/
theorem juryClosing_events (s : AutogenSession) (un : String) (o : JuryOracle)
    (htpl : s.agent_templates ≠ []) (hnr : o.closingResult.isRaised = false) :
    ∃ nm txt g v, (juryClosing s un o).2 = [Event.agentMessage nm txt g v] := by
  unfold juryClosing
  split
  · split
    · split
      · exact ⟨_, _, _, _, rfl⟩
      · exact juryFallbackClosing_events s un htpl
      · next e heq =>
        rw [heq] at hnr
        simp [ModelResult.isRaised] at hnr
    · exact juryFallbackClosing_events s un htpl
  · exact juryFallbackClosing_events s un htpl

/-- C1: for every JURY session, `questions_asked` never exceeds
`max_questions` (4) across any sequence of incoming user messages; and once
it has reached 4, every subsequent user message leaves `questions_asked`,
`current_jury_index` and `conversation_turns` unchanged and, whenever the
closing model call does not raise, yields exactly one outbound
`agent_message` (the closing message). -/
theorem C1_jury_question_cap (s : AutogenSession)
    (hmode : s.mode = "presentation-jury-mode")
    (hmax : s.max_questions = 4) (hq : s.questions_asked ≤ 4)
    (htpl : s.agent_templates ≠ []) :
    (∀ inputs, (juryRun s inputs).questions_asked ≤ 4) ∧
    (s.questions_asked = 4 → ∀ m n (o : TurnOracle),
      (autogenGetAgentResponse s m n o).1.questions_asked = s.questions_asked ∧
      (autogenGetAgentResponse s m n o).1.current_jury_index = s.current_jury_index ∧
      (autogenGetAgentResponse s m n o).1.conversation_turns = s.conversation_turns ∧
      (o.jury.closingResult.isRaised = false →
        ∃ nm txt g v,
          (autogenGetAgentResponse s m n o).2 = [Event.agentMessage nm txt g v])) := by
  constructor
  · intro inputs
    have := juryRun_bound inputs s (by rw [hmax]; exact hq)
    rw [hmax] at this
    exact this.1
  · intro h4 m n o
    have hbranch : autogenGetAgentResponse s m n o =
        juryCore { s with conversation_history :=
          s.conversation_history ++ [userEntry n m] } m n o.jury := by
      unfold autogenGetAgentResponse
      rw [if_pos hmode]
    have hclo : juryCore { s with conversation_history :=
        s.conversation_history ++ [userEntry n m] } m n o.jury =
        juryClosing { s with conversation_history :=
          s.conversation_history ++ [userEntry n m] } n o.jury := by
      unfold juryCore
      rw [if_pos]
      show s.questions_asked ≥ s.max_questions
      rw [hmax, h4]
    rw [hbranch, hclo, juryClosing_fst]
    refine ⟨rfl, rfl, rfl, fun hnr => ?_⟩
    exact juryClosing_events _ n o.jury htpl hnr

/-- A freshly created jury session. -/
def jurySessionFresh : AutogenSession :=
  mkAutogenSession "sid" "presentation-jury-mode" "school"

/-- A jury session that has asked all four questions. -/
def jurySessionDone : AutogenSession :=
  { jurySessionFresh with
      questions_asked := 4
      last_agent_who_asked := some "Alex Thompson" }

/-- C1 witness: at the completed concrete session, a further message yields
exactly one closing `agent_message`. -/
theorem C1_jury_question_cap_witness :
    ∃ nm txt g v,
      (autogenGetAgentResponse jurySessionDone "bye" "User" trivialOracle).2 =
        [Event.agentMessage nm txt g v] :=
  ((C1_jury_question_cap jurySessionDone rfl rfl (by decide)
      (by decide)).2 rfl "bye" "User" trivialOracle).2.2.2 rfl

/-- Whether a model call returned a message. -/
def ModelResult.isSuccess : ModelResult → Bool
  | .success _ => true
  | _ => false

/-- On a successful question call, the advance-and-ask step advances the
index modulo the persona count, increments `questions_asked`, records the
asker, and emits the question from the persona at the new index. -/
theorem juryAskQuestion_success (s : AutogenSession) (o : JuryOracle)
    (acc : List Event) (txt : String)
    (htpl : s.agent_templates ≠ []) (hsucc : o.questionResult = .success txt) :
    (juryAskQuestion s o acc).1.current_jury_index =
      (s.current_jury_index + 1) % s.agent_templates.length ∧
    (juryAskQuestion s o acc).1.questions_asked = s.questions_asked + 1 ∧
    (juryAskQuestion s o acc).1.last_agent_who_asked =
      some (s.agent_templates.getD
        ((s.current_jury_index + 1) % s.agent_templates.length) default).name ∧
    (juryAskQuestion s o acc).2 =
      acc ++ [mkAgentEvent (s.agent_templates.getD
        ((s.current_jury_index + 1) % s.agent_templates.length) default) txt] := by
  obtain ⟨sid, mo, et, tpls, map, hgc, hist, csi, cji, jhs, qa, mq, law, ct, mct⟩ := s
  cases tpls with
  | nil => exact absurd rfl htpl
  | cons t ts => simp [juryAskQuestion, hsucc]

/-- A whole question turn on a successful question call, at the
`_get_jury_response` level. -/
theorem juryQuestionTurn_success (s : AutogenSession) (m : String) (o : JuryOracle)
    (txt : String) (htpl : s.agent_templates ≠ [])
    (hty : o.thankYouResult.isRaised = false)
    (hsucc : o.questionResult = .success txt) :
    (juryQuestionTurn s m o).1.current_jury_index =
      (s.current_jury_index + 1) % s.agent_templates.length ∧
    (juryQuestionTurn s m o).1.questions_asked = s.questions_asked + 1 ∧
    (juryQuestionTurn s m o).1.last_agent_who_asked =
      some (s.agent_templates.getD
        ((s.current_jury_index + 1) % s.agent_templates.length) default).name ∧
    ∃ pre, (juryQuestionTurn s m o).2 =
      pre ++ [mkAgentEvent (s.agent_templates.getD
        ((s.current_jury_index + 1) % s.agent_templates.length) default) txt] := by
  unfold juryQuestionTurn
  split
  · next t hTT =>
    split
    · next e heq =>
      rw [heq] at hty
      simp [ModelResult.isRaised] at hty
    · next ty heq =>
      obtain ⟨a, b, c, d⟩ := juryAskQuestion_success s o [mkAgentEvent t ty] txt htpl hsucc
      exact ⟨a, b, c, [mkAgentEvent t ty], d⟩
    · obtain ⟨a, b, c, d⟩ := juryAskQuestion_success s o [] txt htpl hsucc
      exact ⟨a, b, c, [], d⟩
  · obtain ⟨a, b, c, d⟩ := juryAskQuestion_success s o [] txt htpl hsucc
    exact ⟨a, b, c, [], d⟩

/-- A whole question turn on a successful question call, at the
`get_agent_response` level. -/
theorem jury_success_step (s : AutogenSession) (m n : String) (o : TurnOracle)
    (txt : String) (hmode : s.mode = "presentation-jury-mode")
    (hq : s.questions_asked < s.max_questions) (htpl : s.agent_templates ≠ [])
    (hty : o.jury.thankYouResult.isRaised = false)
    (hsucc : o.jury.questionResult = .success txt) :
    (autogenGetAgentResponse s m n o).1.current_jury_index =
      (s.current_jury_index + 1) % s.agent_templates.length ∧
    (autogenGetAgentResponse s m n o).1.questions_asked = s.questions_asked + 1 ∧
    (autogenGetAgentResponse s m n o).1.last_agent_who_asked =
      some (s.agent_templates.getD
        ((s.current_jury_index + 1) % s.agent_templates.length) default).name ∧
    ∃ pre, (autogenGetAgentResponse s m n o).2 =
      pre ++ [mkAgentEvent (s.agent_templates.getD
        ((s.current_jury_index + 1) % s.agent_templates.length) default) txt] := by
  have hred : autogenGetAgentResponse s m n o =
      juryQuestionTurn { s with conversation_history :=
        s.conversation_history ++ [userEntry n m] } m o.jury := by
    unfold autogenGetAgentResponse juryCore
    rw [if_pos hmode, if_neg]
    show ¬ s.questions_asked ≥ s.max_questions
    exact Nat.not_le.mpr hq
  rw [hred]
  exact juryQuestionTurn_success _ m o.jury txt htpl hty hsucc

/-- An input whose oracle lets the question turn succeed: the thank-you
call does not raise and the question call returns a message. -/
def succInput (i : String × String × TurnOracle) : Bool :=
  !i.2.2.jury.thankYouResult.isRaised && i.2.2.jury.questionResult.isSuccess

/-- Over any all-successful run that stays within the question budget, the
jury index advances by one modulo 3 per turn. -/
theorem juryRun_cycle (inputs : List (String × String × TurnOracle)) :
    ∀ s : AutogenSession, s.mode = "presentation-jury-mode" →
      s.agent_templates.length = 3 → s.current_jury_index < 3 →
      (∀ i ∈ inputs, succInput i = true) →
      s.questions_asked + inputs.length ≤ s.max_questions →
      (juryRun s inputs).current_jury_index =
        (s.current_jury_index + inputs.length) % 3 := by
  induction inputs with
  | nil =>
    intro s _ _ hlt _ _
    exact (Nat.mod_eq_of_lt hlt).symm
  | cons i rest ih =>
    intro s hmode htpl3 hlt hall hbudget
    have hsi := hall i (List.mem_cons_self i rest)
    simp only [succInput, Bool.and_eq_true, Bool.not_eq_true'] at hsi
    obtain ⟨hty, hqs'⟩ := hsi
    have hqs : ∃ txt, i.2.2.jury.questionResult = .success txt := by
      cases hcc : i.2.2.jury.questionResult with
      | success txt => exact ⟨txt, rfl⟩
      | empty =>
        rw [hcc] at hqs'
        simp [ModelResult.isSuccess] at hqs'
      | raised e =>
        rw [hcc] at hqs'
        simp [ModelResult.isSuccess] at hqs'
    obtain ⟨txt, hsucc⟩ := hqs
    have htne : s.agent_templates ≠ [] := by
      intro hnil
      rw [hnil] at htpl3
      simp at htpl3
    have hlen : (i :: rest).length = rest.length + 1 := rfl
    rw [hlen] at hbudget
    have hq : s.questions_asked < s.max_questions := by omega
    obtain ⟨hidx, hqinc, hlast, hpre⟩ :=
      jury_success_step s i.1 i.2.1 i.2.2 txt hmode hq htne hty hsucc
    obtain ⟨hmode', hmax', htpl', hqcases⟩ := autogenTurn_fields s i.1 i.2.1 i.2.2
    have hrun : juryRun s (i :: rest) =
        juryRun (autogenGetAgentResponse s i.1 i.2.1 i.2.2).1 rest := rfl
    have h3' : (autogenGetAgentResponse s i.1 i.2.1 i.2.2).1.agent_templates.length = 3 := by
      rw [htpl', htpl3]
    have hlt' : (autogenGetAgentResponse s i.1 i.2.1 i.2.2).1.current_jury_index < 3 := by
      rw [hidx, htpl3]
      exact Nat.mod_lt _ (by norm_num)
    have hbud' : (autogenGetAgentResponse s i.1 i.2.1 i.2.2).1.questions_asked + rest.length ≤
        (autogenGetAgentResponse s i.1 i.2.1 i.2.2).1.max_questions := by
      rw [hqinc, hmax']
      omega
    have hih := ih (autogenGetAgentResponse s i.1 i.2.1 i.2.2).1 (hmode'.trans hmode) h3'
      hlt' (fun j hj => hall j (List.mem_cons_of_mem i hj)) hbud'
    rw [hrun, hih, hidx, htpl3, hlen]
    omega

/-- C2: on every successful question turn of a JURY session with n
registered personas, `current_jury_index` is advanced once by
`(current_jury_index + 1) mod n` and the question is asked by the persona
at the new index; consequently, starting from a freshly created session
(3 personas, initial index 0), after k successful question turns the index
is k mod 3, i.e. the questioning indices are 1, 2, 0, 1, ... in
registration order, starting from index 1 on the first question. -/
theorem C2_jury_round_robin :
    (∀ (s : AutogenSession) (m n : String) (o : TurnOracle) (txt : String),
      s.mode = "presentation-jury-mode" → s.questions_asked < s.max_questions →
      s.agent_templates ≠ [] → o.jury.thankYouResult.isRaised = false →
      o.jury.questionResult = .success txt →
      (autogenGetAgentResponse s m n o).1.current_jury_index =
        (s.current_jury_index + 1) % s.agent_templates.length ∧
      ∃ pre, (autogenGetAgentResponse s m n o).2 =
        pre ++ [mkAgentEvent (s.agent_templates.getD
          ((s.current_jury_index + 1) % s.agent_templates.length) default) txt]) ∧
    (∀ (sid et : String) (inputs : List (String × String × TurnOracle)),
      (∀ i ∈ inputs, succInput i = true) → inputs.length ≤ 4 →
      (juryRun (mkAutogenSession sid "presentation-jury-mode" et) inputs).current_jury_index =
        inputs.length % 3) := by
  constructor
  · intro s m n o txt hmode hq htpl hty hsucc
    obtain ⟨h1, h2, h3, h4⟩ := jury_success_step s m n o txt hmode hq htpl hty hsucc
    exact ⟨h1, h4⟩
  · intro sid et inputs hall hlen
    have e1 : (mkAutogenSession sid "presentation-jury-mode" et).agent_templates.length = 3 := rfl
    have e2 : (mkAutogenSession sid "presentation-jury-mode" et).current_jury_index = 0 := rfl
    have e3 : (mkAutogenSession sid "presentation-jury-mode" et).questions_asked = 0 := rfl
    have e4 : (mkAutogenSession sid "presentation-jury-mode" et).max_questions = 4 := rfl
    have h := juryRun_cycle inputs (mkAutogenSession sid "presentation-jury-mode" et)
      rfl e1 (by rw [e2]; norm_num) hall (by rw [e3, e4]; omega)
    rw [e2] at h
    simpa using h

/-- A turn oracle whose jury calls all succeed. -/
def succOracle : TurnOracle :=
  ⟨⟨.empty, .success "thanks", .success "question"⟩, []⟩

/-- C2 witness: two successful turns on a fresh jury session land the index
on persona 2, matching the 1, 2, 0, ... cycle. -/
theorem C2_jury_round_robin_witness :
    (juryRun jurySessionFresh
      [("a", "User", succOracle), ("b", "User", succOracle)]).current_jury_index = 2 :=
  C2_jury_round_robin.2 "sid" "school"
    [("a", "User", succOracle), ("b", "User", succOracle)]
    (by decide) (by decide)

/-- Whether an event is an `error` payload. -/
def isErrorEvent : Event → Bool
  | .errorEvent _ => true
  | _ => false

/-- Below the question cap, `get_agent_response` reduces to the question
turn on the session with the user entry appended. -/
theorem autogen_question_turn_red (s : AutogenSession) (m n : String) (o : TurnOracle)
    (hmode : s.mode = "presentation-jury-mode")
    (hq : s.questions_asked < s.max_questions) :
    autogenGetAgentResponse s m n o =
      juryQuestionTurn { s with conversation_history :=
        s.conversation_history ++ [userEntry n m] } m o.jury := by
  unfold autogenGetAgentResponse juryCore
  rw [if_pos hmode, if_neg]
  show ¬ s.questions_asked ≥ s.max_questions
  exact Nat.not_le.mpr hq

/-- When the thank-you call raises, the question turn yields exactly the
error event and mutates nothing. -/
theorem juryQuestionTurn_thank_raised (s : AutogenSession) (m : String)
    (o : JuryOracle) (e : ApiError) (hTT : (thankTemplate s m).isSome)
    (hraise : o.thankYouResult = .raised e) :
    juryQuestionTurn s m o = (s, [Event.errorEvent (autogenErrorText e)]) := by
  unfold juryQuestionTurn
  obtain ⟨t, ht⟩ := Option.isSome_iff_exists.mp hTT
  rw [ht, hraise]

/-- When the question call raises, the advance-and-ask step has already
advanced the index; nothing else changes and the error event is appended. -/
theorem juryAskQuestion_raised (s : AutogenSession) (o : JuryOracle)
    (acc : List Event) (e : ApiError)
    (htpl : s.agent_templates ≠ []) (hraise : o.questionResult = .raised e) :
    juryAskQuestion s o acc =
      ({ s with current_jury_index :=
          (s.current_jury_index + 1) % s.agent_templates.length },
        acc ++ [Event.errorEvent (autogenErrorText e)]) := by
  obtain ⟨sid, mo, et, tpls, map, hgc, hist, csi, cji, jhs, qa, mq, law, ct, mct⟩ := s
  cases tpls with
  | nil => exact absurd rfl htpl
  | cons t ts => simp [juryAskQuestion, hraise]

/-- A question turn whose question call raises: the index is advanced and
not rolled back, the counters and `last_agent_who_asked` keep their values,
and the turn's error output is exactly one error event. -/
theorem juryQuestionTurn_question_raised (s : AutogenSession) (m : String)
    (o : JuryOracle) (e : ApiError)
    (hty : (thankTemplate s m).isSome → o.thankYouResult.isRaised = false)
    (htpl : s.agent_templates ≠ []) (hraise : o.questionResult = .raised e) :
    (juryQuestionTurn s m o).1 =
      { s with current_jury_index :=
          (s.current_jury_index + 1) % s.agent_templates.length } ∧
    (juryQuestionTurn s m o).2.filter isErrorEvent =
      [Event.errorEvent (autogenErrorText e)] := by
  unfold juryQuestionTurn
  split
  · next t hTT =>
    split
    · next e' heq =>
      have := hty (by rw [hTT]; rfl)
      rw [heq] at this
      simp [ModelResult.isRaised] at this
    · next ty heq =>
      rw [juryAskQuestion_raised s o [mkAgentEvent t ty] e htpl hraise]
      exact ⟨rfl, by simp [isErrorEvent, mkAgentEvent]⟩
    · rw [juryAskQuestion_raised s o [] e htpl hraise]
      exact ⟨rfl, by simp [isErrorEvent]⟩
  · rw [juryAskQuestion_raised s o [] e htpl hraise]
    exact ⟨rfl, by simp [isErrorEvent]⟩

/-- C4: a provider error during a JURY question turn is converted into
exactly one user-visible error event with kind-distinct text (quota vs auth
vs generic), `questions_asked` and `last_agent_who_asked` are unchanged;
and an index advance that happened before the failing call (the question
call) is not rolled back, while a failure before the advance (the thank-you
call) leaves the index at its old value. -/
theorem C4_jury_error_turn :
    (∀ (s : AutogenSession) (m n : String) (o : TurnOracle) (e : ApiError),
      s.mode = "presentation-jury-mode" → s.questions_asked < s.max_questions →
      s.agent_templates ≠ [] →
      ((thankTemplate s m).isSome → o.jury.thankYouResult = .raised e →
        (autogenGetAgentResponse s m n o).2 = [Event.errorEvent (autogenErrorText e)] ∧
        (autogenGetAgentResponse s m n o).1.questions_asked = s.questions_asked ∧
        (autogenGetAgentResponse s m n o).1.last_agent_who_asked = s.last_agent_who_asked ∧
        (autogenGetAgentResponse s m n o).1.current_jury_index = s.current_jury_index) ∧
      (((thankTemplate s m).isSome → o.jury.thankYouResult.isRaised = false) →
        o.jury.questionResult = .raised e →
        (autogenGetAgentResponse s m n o).2.filter isErrorEvent =
          [Event.errorEvent (autogenErrorText e)] ∧
        (autogenGetAgentResponse s m n o).1.questions_asked = s.questions_asked ∧
        (autogenGetAgentResponse s m n o).1.last_agent_who_asked = s.last_agent_who_asked ∧
        (autogenGetAgentResponse s m n o).1.current_jury_index =
          (s.current_jury_index + 1) % s.agent_templates.length)) ∧
    (∀ m1 m2 : String,
      autogenErrorText (.rateLimit m1) ≠ autogenErrorText (.authFailed m2)) ∧
    (∀ m1 m2 : String,
      autogenErrorText (.rateLimit m1) ≠ autogenErrorText (.generic m2)) ∧
    (∀ m1 m2 : String,
      autogenErrorText (.authFailed m1) ≠ autogenErrorText (.generic m2)) := by
  refine ⟨?_, ?_, ?_, ?_⟩
  · intro s m n o e hmode hq htpl
    constructor
    · intro hTT hraise
      rw [autogen_question_turn_red s m n o hmode hq]
      rw [juryQuestionTurn_thank_raised
        { s with conversation_history := s.conversation_history ++ [userEntry n m] }
        m o.jury e hTT hraise]
      exact ⟨rfl, rfl, rfl, rfl⟩
    · intro hty hraise
      rw [autogen_question_turn_red s m n o hmode hq]
      obtain ⟨h1, h2⟩ := juryQuestionTurn_question_raised
        { s with conversation_history := s.conversation_history ++ [userEntry n m] }
        m o.jury e hty htpl hraise
      refine ⟨h2, ?_, ?_, ?_⟩ <;> rw [h1]
  · intro m1 m2
    show quotaMessage ≠ authMessage
    decide
  · intro m1 m2 h
    have h10 : (10 : Nat) ≤ "Sorry, there was an unexpected error: ".data.length := by
      decide
    have hx := congrArg (fun s => s.data.take 10) h.symm
    simp only [autogenErrorText] at hx
    rw [String.data_append, String.data_append, List.append_assoc,
      List.take_append_of_le_length h10] at hx
    exact absurd hx (by decide)
  · intro m1 m2 h
    have h10 : (10 : Nat) ≤ "Sorry, there was an unexpected error: ".data.length := by
      decide
    have hx := congrArg (fun s => s.data.take 10) h.symm
    simp only [autogenErrorText] at hx
    rw [String.data_append, String.data_append, List.append_assoc,
      List.take_append_of_le_length h10] at hx
    exact absurd hx (by decide)

/-- A turn oracle whose jury question call raises a rate-limit error. -/
def failOracle : TurnOracle :=
  ⟨⟨.empty, .empty, .raised (.rateLimit "429")⟩, []⟩

/-- C4 witness: at the fresh concrete session a rate-limited question call
produces exactly the quota error event. -/
theorem C4_jury_error_turn_witness :
    (autogenGetAgentResponse jurySessionFresh "Hello" "User" failOracle).2.filter
        isErrorEvent = [Event.errorEvent quotaMessage] :=
  (((C4_jury_error_turn.1 jurySessionFresh "Hello" "User" failOracle
      (.rateLimit "429") rfl (by decide) (by decide)).2
    (fun hs => absurd hs (by decide)) rfl)).1

/-- The echo condition of the response filters: the candidate text equals
the user utterance after stripping, exactly or case-insensitively. -/
def echoes (c u : String) : Prop :=
  pyLower (pyStrip c) = pyLower (pyStrip u) ∨ pyStrip c = pyStrip u

instance (c u : String) : Decidable (echoes c u) := by
  unfold echoes
  infer_instance

/-- The display name of an `agent_message` event. -/
def eventAgentName : Event → Option String
  | .agentMessage nm _ _ _ => some nm
  | _ => none

/-- Core facts about the filtering loop, for any state: the yielded events
respect the response cap; every appended history entry is agent-kind and
not an echo of the user utterance; and every yielded event is an
`agent_message` whose text is not an echo of the user utterance. -/
theorem envLoop_spec (tpl : List AgentTemplate) (map : List (String × String))
    (um un : String) (maxR : Nat) :
    ∀ (items : List StreamItem) (count : Nat) (responded : List String),
      (envLoop tpl map um un maxR items count responded).2.1.length ≤ maxR - count ∧
      (∀ e ∈ (envLoop tpl map um un maxR items count responded).1,
        e.htype = .agent ∧ ¬ echoes e.message um) ∧
      (∀ ev ∈ (envLoop tpl map um un maxR items count responded).2.1,
        ∃ nm txt g v, ev = .agentMessage nm txt g v ∧ ¬ echoes txt um) := by
  intro items
  induction items with
  | nil => simp [envLoop]
  | cons item rest ih =>
    intro count responded
    cases item with
    | raised e => simp [envLoop]
    | noText =>
      by_cases hc : count ≥ maxR
      · simp [envLoop, hc]
      · simpa only [envLoop, if_neg hc] using ih count responded
    | reply src c =>
      by_cases hc : count ≥ maxR
      · simp [envLoop, hc]
      · by_cases h1 : pyStrip c = ""
        · simpa only [envLoop, if_neg hc, if_pos h1] using ih count responded
        · by_cases h2 : pyLower (pyStrip c) = pyLower (pyStrip um) ∨ pyStrip c = pyStrip um
          · simpa only [envLoop, if_neg hc, if_neg h1, if_pos h2] using ih count responded
          · by_cases h3 : src = un ∨ src = "User"
            · simpa only [envLoop, if_neg hc, if_neg h1, if_neg h2, if_pos h3] using
                ih count responded
            · by_cases h4 : (alookup map src).isNone = true
              · simpa only [envLoop, if_neg hc, if_neg h1, if_neg h2, if_neg h3, if_pos h4]
                  using ih count responded
              · by_cases h5 : src ∈ responded
                · simpa only [envLoop, if_neg hc, if_neg h1, if_neg h2, if_neg h3,
                    if_neg h4, if_pos h5] using ih count responded
                · by_cases h6 : pyContains c "Previous conversation context:" = true ∨
                    pyContains c "User just said:" = true
                  · simpa only [envLoop, if_neg hc, if_neg h1, if_neg h2, if_neg h3,
                      if_neg h4, if_neg h5, if_pos h6] using ih count responded
                  · simp only [envLoop, if_neg hc, if_neg h1, if_neg h2, if_neg h3,
                      if_neg h4, if_neg h5, if_neg h6]
                    obtain ⟨iha, ihb, ihc⟩ := ih (count + 1) (responded ++ [src])
                    refine ⟨?_, ?_, ?_⟩
                    · simp only [List.length_cons]
                      have hlt : count < maxR := Nat.lt_of_not_le hc
                      omega
                    · intro e he
                      rcases List.mem_cons.mp he with he | he
                      · rw [he]
                        exact ⟨rfl, h2⟩
                      · exact ihb e he
                    · intro ev hev
                      rcases List.mem_cons.mp hev with hev | hev
                      · exact ⟨_, _, _, _, hev, h2⟩
                      · exact ihc ev hev

/-- The uncapped-turn equation of `get_agent_responses`. -/
theorem convTurn_uncapped (s : ConvSession) (m n : String) (stream : List StreamItem)
    (h : ¬ s.conversation_turns ≥ s.max_conversation_turns) :
    convTurn s m n stream =
      (({ s with
          conversation_turns := s.conversation_turns + 1
          conversation_history := (s.conversation_history ++ [userEntry n m]) ++
            (envLoop s.agent_templates s.agent_name_mapping m n
              (if (s.conversation_history ++ [userEntry n m]).length > 5 then 3 else 2)
              stream 0 []).1 },
        match (envLoop s.agent_templates s.agent_name_mapping m n
            (if (s.conversation_history ++ [userEntry n m]).length > 5 then 3 else 2)
            stream 0 []).2.2 with
        | some e => (envLoop s.agent_templates s.agent_name_mapping m n
            (if (s.conversation_history ++ [userEntry n m]).length > 5 then 3 else 2)
            stream 0 []).2.1 ++ [Event.errorEvent (convErrorText e)]
        | none => (envLoop s.agent_templates s.agent_name_mapping m n
            (if (s.conversation_history ++ [userEntry n m]).length > 5 then 3 else 2)
            stream 0 []).2.1)) := by
  unfold convTurn
  dsimp only
  rw [if_neg h]
  split
  · rfl
  · rfl

/-- Once the response cap is reached, polling one more (non-raising) item
stops the loop: nothing further is consumed, appended or yielded. -/
theorem envLoop_stops (tpl : List AgentTemplate) (map : List (String × String))
    (um un : String) (maxR : Nat) (item : StreamItem) (rest : List StreamItem)
    (count : Nat) (responded : List String) (hc : count ≥ maxR)
    (hnr : item.isRaised = false) :
    envLoop tpl map um un maxR (item :: rest) count responded = ([], [], none) := by
  cases item with
  | raised e => simp [StreamItem.isRaised] at hnr
  | noText => simp [envLoop, hc]
  | reply src c => simp [envLoop, hc]

/-- Whether an event is an `agent_message` payload. -/
def isAgentMessage : Event → Bool
  | .agentMessage _ _ _ _ => true
  | _ => false

/-- The per-turn `agent_message` count respects the cap computed by the
code (3 when the history including the just-appended user entry exceeds 5
entries, else 2). -/
theorem convTurn_cap_le (s : ConvSession) (m n : String) (stream : List StreamItem) :
    ((convTurn s m n stream).2.filter isAgentMessage).length ≤
      (if (s.conversation_history ++ [userEntry n m]).length > 5 then 3 else 2) := by
  by_cases hcap : s.conversation_turns ≥ s.max_conversation_turns
  · rw [convTurn_capped s m n stream hcap]
    simp
  · rw [convTurn_uncapped s m n stream hcap]
    dsimp only
    set maxR := (if (s.conversation_history ++ [userEntry n m]).length > 5 then 3 else 2)
      with hmaxR
    have hle := (envLoop_spec s.agent_templates s.agent_name_mapping m n maxR stream 0 []).1
    rw [Nat.sub_zero] at hle
    split
    · next e heq =>
      rw [List.filter_append, List.length_append]
      have hf2 : ([Event.errorEvent (convErrorText e)].filter isAgentMessage).length = 0 := rfl
      have hf1 := List.length_filter_le isAgentMessage
        (envLoop s.agent_templates s.agent_name_mapping m n maxR stream 0 []).2.1
      omega
    · have hf1 := List.length_filter_le isAgentMessage
        (envLoop s.agent_templates s.agent_name_mapping m n maxR stream 0 []).2.1
      omega

/-- C5 (amended): per ENVIRONMENT turn, the number of `agent_message`
events is at most 3 when the conversation history has more than 5 entries
once the incoming utterance is appended (i.e. more than 4 at the start of
the turn), and at most 2 otherwise; and once the cap is reached, polling
the next (non-raising) streamed reply stops the loop without consuming
anything further. -/
theorem C5_env_response_cap :
    (∀ (s : ConvSession) (m n : String) (stream : List StreamItem),
      ((convTurn s m n stream).2.filter isAgentMessage).length ≤
        (if s.conversation_history.length + 1 > 5 then 3 else 2)) ∧
    (∀ (tpl : List AgentTemplate) (map : List (String × String)) (um un : String)
        (maxR : Nat) (item : StreamItem) (rest : List StreamItem) (count : Nat)
        (responded : List String), count ≥ maxR → item.isRaised = false →
      envLoop tpl map um un maxR (item :: rest) count responded = ([], [], none)) := by
  constructor
  · intro s m n stream
    have h := convTurn_cap_le s m n stream
    have hlen : (s.conversation_history ++ [userEntry n m]).length =
        s.conversation_history.length + 1 := by simp
    rw [hlen] at h
    exact h
  · intro tpl map um un maxR item rest count responded hc hnr
    exact envLoop_stops tpl map um un maxR item rest count responded hc hnr

/-- An ENVIRONMENT session whose history holds exactly 5 entries at the
start of the turn. -/
def envSessionFive : ConvSession :=
  { mkConvSession "sid" "school" with
      conversation_history :=
        [⟨"User", "a", .user⟩, ⟨"Max", "b", .agent⟩, ⟨"User", "c", .user⟩,
         ⟨"Luna", "d", .agent⟩, ⟨"User", "e", .user⟩] }

/-- Three valid distinct-persona replies for one school-session turn. -/
def exStream : List StreamItem :=
  [.reply "max" "A", .reply "luna" "B", .reply "jordan" "C"]

/-- C5 counterexample: a turn starting with exactly 5 history entries (not
"more than 5", so the claim allows at most 2) emits 3 `agent_message`
events, because the code compares the cap against the history length after
appending the user utterance. -/
theorem C5_counterexample :
    envSessionFive.conversation_history.length = 5 ∧
    ((convTurn envSessionFive "Hi" "User" exStream).2.filter isAgentMessage).length = 3 := by
  constructor
  · rfl
  · rfl

/-- C5 witness: the amended cap at the concrete 5-entry session. -/
theorem C5_env_response_cap_witness :
    ((convTurn envSessionFive "Hi" "User" exStream).2.filter isAgentMessage).length ≤
      (if envSessionFive.conversation_history.length + 1 > 5 then 3 else 2) :=
  C5_env_response_cap.1 envSessionFive "Hi" "User" exStream

/-- A text that equals the user utterance exactly or case-insensitively
satisfies the code's echo condition. -/
theorem echoes_of_plain {c u : String} (h : c = u ∨ pyLower c = pyLower u) :
    echoes c u := by
  rcases h with h | h
  · exact Or.inr (by rw [h])
  · exact Or.inl (pyLower_strip_congr h)

/-- C7: in every ENVIRONMENT turn with incoming utterance U, no emitted
event is an `agent_message` whose text equals U (exactly or
case-insensitively), and no history entry appended beyond the user entry
carries such a text. -/
theorem C7_env_echo_filter :
    ∀ (s : ConvSession) (m n : String) (stream : List StreamItem),
      (∀ ev ∈ (convTurn s m n stream).2, ∀ nm txt g v,
        ev = Event.agentMessage nm txt g v → txt ≠ m ∧ pyLower txt ≠ pyLower m) ∧
      (∃ rest, (convTurn s m n stream).1.conversation_history =
        s.conversation_history ++ userEntry n m :: rest ∧
        ∀ e ∈ rest, e.message ≠ m ∧ pyLower e.message ≠ pyLower m) := by
  intro s m n stream
  have havoid : ∀ txt : String, ¬ echoes txt m →
      txt ≠ m ∧ pyLower txt ≠ pyLower m := by
    intro txt hne
    constructor
    · intro hq
      exact hne (echoes_of_plain (Or.inl hq))
    · intro hq
      exact hne (echoes_of_plain (Or.inr hq))
  by_cases hcap : s.conversation_turns ≥ s.max_conversation_turns
  · rw [convTurn_capped s m n stream hcap]
    constructor
    · intro ev hev
      simp at hev
    · exact ⟨[], by simp, by simp⟩
  · rw [convTurn_uncapped s m n stream hcap]
    dsimp only
    set maxR := (if (s.conversation_history ++ [userEntry n m]).length > 5 then 3 else 2)
      with hmaxR
    set L := envLoop s.agent_templates s.agent_name_mapping m n maxR stream 0 []
      with hL
    obtain ⟨-, hentries, hevents⟩ :=
      envLoop_spec s.agent_templates s.agent_name_mapping m n maxR stream 0 []
    rw [← hL] at hentries hevents
    constructor
    · intro ev hev nm txt g v hevq
      have hev' : ev ∈ L.2.1 := by
        rcases hE : L.2.2 with _ | e
        · simp only [hE] at hev
          exact hev
        · simp only [hE] at hev
          rcases List.mem_append.mp hev with h | h
          · exact h
          · simp at h
            rw [h] at hevq
            exact absurd hevq (by simp)
      obtain ⟨nm', txt', g', v', heq, hne⟩ := hevents ev hev'
      rw [heq] at hevq
      injection hevq with h1 h2 h3 h4
      rw [← h2]
      exact havoid txt' hne
    · refine ⟨L.1, ?_, ?_⟩
      · simp
      · intro e he
        exact havoid e.message (hentries e he).2

/-- A value found by lookup is among the association list's values. -/
theorem alookup_mem_values {α : Type} (l : List (String × α)) (k : String) (v : α) :
    alookup l k = some v → v ∈ l.map Prod.snd := by
  induction l with
  | nil =>
    intro h
    simp [alookup] at h
  | cons p rest ih =>
    intro h
    rcases p with ⟨k', v'⟩
    simp only [alookup] at h
    by_cases hk : k = k'
    · rw [if_pos hk] at h
      injection h with h
      simp [h]
    · rw [if_neg hk] at h
      simp only [List.map_cons, List.mem_cons]
      exact Or.inr (ih h)

/-- With pairwise-distinct values, two keys looking up the same value are
equal. -/
theorem alookup_inj {α : Type} [DecidableEq α] (l : List (String × α))
    (hv : (l.map Prod.snd).Nodup) (k1 k2 : String) (v : α)
    (h1 : alookup l k1 = some v) (h2 : alookup l k2 = some v) : k1 = k2 := by
  induction l with
  | nil => simp [alookup] at h1
  | cons p rest ih =>
    rcases p with ⟨k', v'⟩
    simp only [alookup] at h1 h2
    simp only [List.map_cons, List.nodup_cons] at hv
    by_cases hk1 : k1 = k'
    · by_cases hk2 : k2 = k'
      · rw [hk1, hk2]
      · rw [if_pos hk1] at h1
        rw [if_neg hk2] at h2
        injection h1 with h1
        rw [h1] at hv
        exact absurd (alookup_mem_values rest k2 v h2) hv.1
    · by_cases hk2 : k2 = k'
      · rw [if_neg hk1] at h1
        rw [if_pos hk2] at h2
        injection h2 with h2
        rw [h2] at hv
        exact absurd (alookup_mem_values rest k1 v h1) hv.1
      · rw [if_neg hk1] at h1
        rw [if_neg hk2] at h2
        exact ih hv.2 h1 h2

/-- With pairwise-distinct display names, the agent names of the events
yielded in one loop run are pairwise distinct, and each comes from a
source not yet in `responded`. -/
theorem envLoop_names (tpl : List AgentTemplate) (map : List (String × String))
    (um un : String) (maxR : Nat) (hv : (map.map Prod.snd).Nodup) :
    ∀ (items : List StreamItem) (count : Nat) (responded : List String),
      ((envLoop tpl map um un maxR items count responded).2.1.filterMap
        eventAgentName).Nodup ∧
      (∀ nm ∈ (envLoop tpl map um un maxR items count responded).2.1.filterMap
          eventAgentName,
        ∃ src, src ∉ responded ∧ alookup map src = some nm) := by
  intro items
  induction items with
  | nil => simp [envLoop]
  | cons item rest ih =>
    intro count responded
    cases item with
    | raised e => simp [envLoop]
    | noText =>
      by_cases hc : count ≥ maxR
      · simp [envLoop, hc]
      · simpa only [envLoop, if_neg hc] using ih count responded
    | reply src c =>
      by_cases hc : count ≥ maxR
      · simp [envLoop, hc]
      · by_cases h1 : pyStrip c = ""
        · simpa only [envLoop, if_neg hc, if_pos h1] using ih count responded
        · by_cases h2 : pyLower (pyStrip c) = pyLower (pyStrip um) ∨ pyStrip c = pyStrip um
          · simpa only [envLoop, if_neg hc, if_neg h1, if_pos h2] using ih count responded
          · by_cases h3 : src = un ∨ src = "User"
            · simpa only [envLoop, if_neg hc, if_neg h1, if_neg h2, if_pos h3] using
                ih count responded
            · by_cases h4 : (alookup map src).isNone = true
              · simpa only [envLoop, if_neg hc, if_neg h1, if_neg h2, if_neg h3, if_pos h4]
                  using ih count responded
              · by_cases h5 : src ∈ responded
                · simpa only [envLoop, if_neg hc, if_neg h1, if_neg h2, if_neg h3,
                    if_neg h4, if_pos h5] using ih count responded
                · by_cases h6 : pyContains c "Previous conversation context:" = true ∨
                    pyContains c "User just said:" = true
                  · simpa only [envLoop, if_neg hc, if_neg h1, if_neg h2, if_neg h3,
                      if_neg h4, if_neg h5, if_pos h6] using ih count responded
                  · simp only [envLoop, if_neg hc, if_neg h1, if_neg h2, if_neg h3,
                      if_neg h4, if_neg h5, if_neg h6]
                    obtain ⟨v, hlook⟩ : ∃ v, alookup map src = some v := by
                      rcases hx : alookup map src with _ | v
                      · rw [hx] at h4
                        simp at h4
                      · exact ⟨v, rfl⟩
                    obtain ⟨ihn, ihf⟩ := ih (count + 1) (responded ++ [src])
                    have hdisp : (alookup map src).getD src = v := by
                      rw [hlook]
                      rfl
                    refine ⟨?_, ?_⟩
                    · simp only [List.filterMap_cons, eventAgentName, hdisp,
                        List.nodup_cons]
                      refine ⟨?_, ihn⟩
                      intro hmem
                      obtain ⟨src', hnr', hlook'⟩ := ihf v hmem
                      have : src' = src :=
                        alookup_inj map hv src' src v hlook' hlook
                      rw [this] at hnr'
                      exact hnr' (List.mem_append_right responded (by simp))
                    · intro nm hmem
                      simp only [List.filterMap_cons, eventAgentName, hdisp,
                        List.mem_cons] at hmem
                      rcases hmem with hmem | hmem
                      · rw [hmem]
                        exact ⟨src, h5, hlook⟩
                      · obtain ⟨src', hnr', hlook'⟩ := ihf nm hmem
                        refine ⟨src', fun hr => hnr' (List.mem_append_left _ hr), hlook'⟩

/-- C6: within one ENVIRONMENT turn, no two `agent_message` events share
the same `agent_name` (first-reply-wins per persona per turn); sessions as
created have pairwise-distinct display names, so the hypothesis holds for
every real session. -/
theorem C6_env_distinct_personas :
    (∀ (s : ConvSession) (m n : String) (stream : List StreamItem),
      (s.agent_name_mapping.map Prod.snd).Nodup →
      ((convTurn s m n stream).2.filterMap eventAgentName).Nodup) ∧
    (∀ sid et : String,
      ((mkConvSession sid et).agent_name_mapping.map Prod.snd).Nodup) := by
  constructor
  · intro s m n stream hv
    by_cases hcap : s.conversation_turns ≥ s.max_conversation_turns
    · rw [convTurn_capped s m n stream hcap]
      simp
    · rw [convTurn_uncapped s m n stream hcap]
      dsimp only
      set maxR := (if (s.conversation_history ++ [userEntry n m]).length > 5 then 3 else 2)
        with hmaxR
      set L := envLoop s.agent_templates s.agent_name_mapping m n maxR stream 0 []
        with hL
      obtain ⟨hn, -⟩ :=
        envLoop_names s.agent_templates s.agent_name_mapping m n maxR hv stream 0 []
      rw [← hL] at hn
      rcases hE : L.2.2 with _ | e
      · simp only [hE]
        exact hn
      · simp only [hE]
        rw [List.filterMap_append]
        simpa [eventAgentName] using hn
  · intro sid et
    have hmap : (mkConvSession sid et).agent_name_mapping =
        (get_environment_mode et).foldl
          (fun m t => aset m (validName t.name) t.name) [] := rfl
    rw [hmap]
    unfold get_environment_mode
    by_cases h1 : et = "school"
    · rw [if_pos h1]
      decide
    · rw [if_neg h1]
      by_cases h2 : et = "office"
      · rw [if_pos h2]
        decide
      · rw [if_neg h2]
        decide

/-- C6 witness: a concrete school-session turn with three accepted replies
has three pairwise-distinct agent names. -/
theorem C6_env_distinct_personas_witness :
    ((convTurn (mkConvSession "sid" "school") "Hi" "User" exStream).2.filterMap
      eventAgentName).Nodup :=
  C6_env_distinct_personas.1 (mkConvSession "sid" "school") "Hi" "User" exStream
    (by decide)

/-- The advance-and-ask step appends only agent-kind entries to history. -/
theorem juryAskQuestion_history (s : AutogenSession) (o : JuryOracle) (acc : List Event) :
    ∃ rest, (juryAskQuestion s o acc).1.conversation_history =
      s.conversation_history ++ rest ∧ ∀ e ∈ rest, e.htype = .agent := by
  obtain ⟨sid, mo, et, tpls, map, hgc, hist, csi, cji, jhs, qa, mq, law, ct, mct⟩ := s
  cases tpls with
  | nil => exact ⟨[], by simp [juryAskQuestion], by simp⟩
  | cons t ts =>
    cases hq : o.questionResult with
    | success txt =>
      refine ⟨[⟨((t :: ts).getD ((cji + 1) % (t :: ts).length) default).name,
        txt, .agent⟩], ?_, ?_⟩
      · simp [juryAskQuestion, hq]
      · intro e he
        simp at he
        rw [he]
    | empty => exact ⟨[], by simp [juryAskQuestion, hq], by simp⟩
    | raised e => exact ⟨[], by simp [juryAskQuestion, hq], by simp⟩

/-- A whole question turn appends only agent-kind entries to history. -/
theorem juryQuestionTurn_history (s : AutogenSession) (m : String) (o : JuryOracle) :
    ∃ rest, (juryQuestionTurn s m o).1.conversation_history =
      s.conversation_history ++ rest ∧ ∀ e ∈ rest, e.htype = .agent := by
  unfold juryQuestionTurn
  split
  · split
    · exact ⟨[], by simp, by simp⟩
    · exact juryAskQuestion_history s o _
    · exact juryAskQuestion_history s o []
  · exact juryAskQuestion_history s o []

/-- `_get_jury_response` appends only agent-kind entries to history. -/
theorem juryCore_history (s : AutogenSession) (m n : String) (o : JuryOracle) :
    ∃ rest, (juryCore s m n o).1.conversation_history =
      s.conversation_history ++ rest ∧ ∀ e ∈ rest, e.htype = .agent := by
  unfold juryCore
  split
  · rw [juryClosing_fst]
    exact ⟨[], by simp, by simp⟩
  · exact juryQuestionTurn_history s m o

/-- The autogen environment branch appends only agent-kind entries. -/
theorem autogenEnvCore_history (s : AutogenSession) (m n : String)
    (stream : List StreamItem) :
    ∃ rest, (autogenEnvCore s m n stream).1.conversation_history =
      s.conversation_history ++ rest ∧ ∀ e ∈ rest, e.htype = .agent := by
  unfold autogenEnvCore
  by_cases hcap : s.conversation_turns ≥ s.max_conversation_turns
  · rw [if_pos hcap]
    exact ⟨[], by simp, by simp⟩
  · rw [if_neg hcap]
    cases hgc : s.has_group_chat with
    | false =>
      rw [if_pos (by simp : (!false) = true)]
      exact ⟨[], by simp, by simp⟩
    | true =>
      rw [if_neg (by simp : ¬ (!true) = true)]
      dsimp only
      obtain ⟨-, hent, -⟩ := envLoop_spec s.agent_templates s.agent_name_mapping m n
        (if s.conversation_history.length > 5 then 3 else 2) stream 0 []
      refine ⟨(envLoop s.agent_templates s.agent_name_mapping m n
        (if s.conversation_history.length > 5 then 3 else 2) stream 0 []).1,
        ?_, fun e he => (hent e he).1⟩
      split <;> rfl

/-- C10: in both modes, the incoming user utterance is appended to
`conversation_history` exactly once — as the first appended entry, with the
supplied user name and kind USER — before any limit check, terminal-state
check or model call; everything appended after it within the turn is
agent-kind. -/
theorem C10_user_append :
    (∀ (s : AutogenSession) (m n : String) (o : TurnOracle),
      ∃ rest, (autogenGetAgentResponse s m n o).1.conversation_history =
        s.conversation_history ++ userEntry n m :: rest ∧
        ∀ e ∈ rest, e.htype = .agent) ∧
    (∀ (s : ConvSession) (m n : String) (stream : List StreamItem),
      ∃ rest, (convTurn s m n stream).1.conversation_history =
        s.conversation_history ++ userEntry n m :: rest ∧
        ∀ e ∈ rest, e.htype = .agent) := by
  constructor
  · intro s m n o
    unfold autogenGetAgentResponse
    split
    · obtain ⟨rest, hh, ha⟩ := juryCore_history
        { s with conversation_history := s.conversation_history ++ [userEntry n m] }
        m n o.jury
      refine ⟨rest, ?_, ha⟩
      rw [hh]
      simp
    · obtain ⟨rest, hh, ha⟩ := autogenEnvCore_history
        { s with conversation_history := s.conversation_history ++ [userEntry n m] }
        m n o.env
      refine ⟨rest, ?_, ha⟩
      rw [hh]
      simp
  · intro s m n stream
    by_cases hcap : s.conversation_turns ≥ s.max_conversation_turns
    · rw [convTurn_capped s m n stream hcap]
      exact ⟨[], by simp, by simp⟩
    · rw [convTurn_uncapped s m n stream hcap]
      dsimp only
      obtain ⟨-, hent, -⟩ := envLoop_spec s.agent_templates s.agent_name_mapping m n
        (if (s.conversation_history ++ [userEntry n m]).length > 5 then 3 else 2)
        stream 0 []
      refine ⟨(envLoop s.agent_templates s.agent_name_mapping m n
        (if (s.conversation_history ++ [userEntry n m]).length > 5 then 3 else 2)
        stream 0 []).1, ?_, fun e he => (hent e he).1⟩
      split <;> simp
